import Mathlib

/-! Verification of the aggregation core of nmapTables (`main.go`).

The program reads nmap XML scan results, extracts per-port service
observations, and `GenerateTableData` groups the `host:port` pairs of the
matching, non-filtered observations by the `"product version"` string,
sorts each group, joins it with the `"<br>"` separator, and returns the
rows sorted by that version key.

Modelling decisions:
* Go strings are modelled as `List Char` (`Str`).  Go compares strings
  bytewise-lexicographically; on UTF-8 encoded text the bytewise order
  coincides with the codepoint-lexicographic order, which `lexLe` below
  implements directly on the codepoints.
* One `Observation` corresponds to one `<port>` element of one parsed
  file, paired with the host address that `GenerateTableData` extracts
  (the first `<address>` of the file's host, or the empty string when the
  file's host carries no address).  The per-file XML parsing is an
  external collaborator and not modelled; `GenerateTableData` only ever
  reads the fields captured by `Observation`.
* The Go `map[string][]string` (`versionMap`) is modelled as an
  association list in first-insertion order.  Go's map iteration order is
  unspecified, but every bucket is keyed by a distinct string and the Go
  code sorts the emitted rows by that key before returning, so the
  returned value does not depend on the iteration order; the association
  list is one admissible determinisation.
* `sort.Strings` / `sort.Slice` are (possibly unstable) comparison sorts;
  their result is some permutation of the input that is non-decreasing for
  the comparison.  Both are applied either to strings (where equal
  elements are identical) or to rows with pairwise distinct keys, so the
  result is the unique such permutation and `List.insertionSort` is a
  faithful model.
-/

/-- Strings of the Go program, as lists of characters. -/
abbrev Str : Type := List Char

/-- Shorthand turning a Lean string literal into a `Str`. -/
def str (s : String) : Str := s.data

/-- Bytewise/codepoint lexicographic `≤` on strings, as Go's `<=` computes it
(`sort.Strings` orders by Go's string `<`). -/
def lexLe : Str → Str → Bool
  | [], _ => true
  | _ :: _, [] => false
  | a :: as, b :: bs =>
    if a.toNat < b.toNat then true
    else if b.toNat < a.toNat then false
    else lexLe as bs

/-- The propositional form of `lexLe`, used as the sorting relation. -/
def leR (a b : Str) : Prop := lexLe a b = true

instance leR.decRel : DecidableRel leR :=
  fun a b => inferInstanceAs (Decidable (lexLe a b = true))

theorem Char.toNat_inj {a b : Char} (h : a.toNat = b.toNat) : a = b :=
  Char.ext (UInt32.toNat.inj h)

theorem lexLe_refl (a : Str) : lexLe a a = true := by
  induction a with
  | nil => rfl
  | cons c cs ih => simp [lexLe, ih]

theorem lexLe_total (a b : Str) : lexLe a b = true ∨ lexLe b a = true := by
  induction a generalizing b with
  | nil => simp [lexLe]
  | cons c cs ih =>
    cases b with
    | nil => simp [lexLe]
    | cons d ds =>
      by_cases h1 : c.toNat < d.toNat
      · simp [lexLe, h1]
      · by_cases h2 : d.toNat < c.toNat
        · simp [lexLe, h1, h2]
        · simpa [lexLe, h1, h2] using ih ds

theorem lexLe_antisymm {a b : Str} (h1 : lexLe a b = true) (h2 : lexLe b a = true) :
    a = b := by
  induction a generalizing b with
  | nil =>
    cases b with
    | nil => rfl
    | cons d ds => simp [lexLe] at h2
  | cons c cs ih =>
    cases b with
    | nil => simp [lexLe] at h1
    | cons d ds =>
      by_cases hcd : c.toNat < d.toNat
      · have : ¬ d.toNat < c.toNat := by omega
        simp [lexLe, hcd, this] at h2
      · by_cases hdc : d.toNat < c.toNat
        · simp [lexLe, hcd, hdc] at h1
        · have hc : c = d := Char.toNat_inj (by omega)
          subst hc
          simp only [lexLe, hcd, if_neg, ite_self] at h1 h2
          rw [ih h1 h2]

theorem lexLe_trans {a b c : Str} (h1 : lexLe a b = true) (h2 : lexLe b c = true) :
    lexLe a c = true := by
  induction a generalizing b c with
  | nil => cases c <;> simp [lexLe]
  | cons x xs ih =>
    cases b with
    | nil => simp [lexLe] at h1
    | cons y ys =>
      cases c with
      | nil => simp [lexLe] at h2
      | cons z zs =>
        by_cases hxy : x.toNat < y.toNat
        · by_cases hyz : y.toNat < z.toNat
          · have : x.toNat < z.toNat := by omega
            simp [lexLe, this]
          · by_cases hzy : z.toNat < y.toNat
            · simp [lexLe, hyz, hzy] at h2
            · have : x.toNat < z.toNat := by omega
              simp [lexLe, this]
        · by_cases hyx : y.toNat < x.toNat
          · simp [lexLe, hxy, hyx] at h1
          · have hx : x = y := Char.toNat_inj (by omega)
            subst hx
            simp only [lexLe, lt_irrefl, if_neg, ite_self, if_false] at h1
            by_cases hxz : x.toNat < z.toNat
            · simp [lexLe, hxz]
            · by_cases hzx : z.toNat < x.toNat
              · simp [lexLe, hxz, hzx] at h2
              · have hxz2 : x = z := Char.toNat_inj (by omega)
                subst hxz2
                simp only [lexLe, lt_irrefl, if_neg, ite_self, if_false] at h2 ⊢
                exact ih h1 h2

instance leR.total : IsTotal Str leR := ⟨lexLe_total⟩

instance leR.trans : IsTrans Str leR := ⟨fun _ _ _ => lexLe_trans⟩

instance leR.antisymm : IsAntisymm Str leR := ⟨fun _ _ => lexLe_antisymm⟩

instance leR.refl : IsRefl Str leR := ⟨lexLe_refl⟩

/-- One service observation: one `<port>` element of one scanned host,
together with the host address string that `GenerateTableData` extracts
for the file (`nmapRun.Host.Address[0].Addr`, or `""` if the host lists
no address). -/
structure Observation where
  host : Str
  port : Str
  portState : Str
  serviceName : Str
  serviceProduct : Str
  serviceVersion : Str
deriving DecidableEq

/-- The `"filtered"` port-state classification. -/
def filteredState : Str := str ("filtered")

/-- The grouping key: `fmt.Sprintf("%s %s", port.Service.Product, port.Service.Version)`. -/
def versionKey (o : Observation) : Str :=
  o.serviceProduct ++ str (" ") ++ o.serviceVersion

/-- The emitted entry of an observation: `hostIP + ":" + portID`. -/
def hostPort (o : Observation) : Str := o.host ++ str (":") ++ o.port

/-- An observation survives both guards of the loop body: its state is not
`"filtered"` and its service name equals the requested one. -/
def kept (s : Str) (o : Observation) : Bool :=
  decide (o.portState ≠ filteredState ∧ o.serviceName = s)

/-- One entry of the `versionMap`: a version key and its accumulated
`host:port` list. -/
abbrev Bucket : Type := Str × List Str

/-- The effect of `versionMap[key] = append(versionMap[key], hostPort)` on the
association-list model: append to the existing bucket of `key`, or create
the bucket at the end. -/
def insertBucket (k hp : Str) : List Bucket → List Bucket
  | [] => [(k, [hp])]
  | b :: rest => if b.1 = k then (b.1, b.2 ++ [hp]) :: rest else b :: insertBucket k hp rest

/-- The loop body of `GenerateTableData` for one observation: skip
`"filtered"` ports, skip non-matching service names, otherwise append
`host:port` to the bucket of the observation's version key. -/
def step (s : Str) (m : List Bucket) (o : Observation) : List Bucket :=
  if o.portState = filteredState then m
  else if o.serviceName = s then insertBucket (versionKey o) (hostPort o) m
  else m

/-- The fully accumulated `versionMap` after both loops of `GenerateTableData`. -/
def accumulate (s : Str) (obs : List Observation) : List Bucket :=
  obs.foldl (step s) []

/-- One output row `[]string{hostsJoined, serviceName, version}` of
`GenerateTableData`, with named fields. -/
structure TableRow where
  hostsField : Str
  serviceName : Str
  versionKey : Str
deriving DecidableEq

/-- The model of `sort.Strings`. -/
def sortStrs (l : List Str) : List Str := List.insertionSort leR l

/-- The `"<br>"` separator joined between the sorted `host:port` entries. -/
def brTok : Str := str ("<br>")

/-- Builds one row from a bucket: `sort.Strings(hosts)`, then
`strings.Join(hosts, "<br>")`, emitted alongside the requested service
name and the version key. -/
def mkRow (s k : Str) (hps : List Str) : TableRow :=
  { hostsField := List.intercalate brTok (sortStrs hps)
    serviceName := s
    versionKey := k }

/-- The row comparison of the final `sort.Slice`: by version key. -/
def rowLe (a b : TableRow) : Prop := leR a.versionKey b.versionKey

instance rowLe.decRel : DecidableRel rowLe :=
  fun a b => inferInstanceAs (Decidable (lexLe a.versionKey b.versionKey = true))

instance rowLe.total : IsTotal TableRow rowLe := ⟨fun _ _ => lexLe_total _ _⟩

instance rowLe.trans : IsTrans TableRow rowLe := ⟨fun _ _ _ => lexLe_trans⟩

/-- Strict version of `rowLe`: smaller and with a different key. -/
def rowLt (a b : TableRow) : Prop := rowLe a b ∧ a.versionKey ≠ b.versionKey

instance rowLt.antisymm : IsAntisymm TableRow rowLt :=
  ⟨fun _ _ h1 h2 => absurd (lexLe_antisymm h1.1 h2.1) h1.2⟩

/-- The aggregation core `GenerateTableData` of `main.go`: accumulate the
version map over all observations, build one row per bucket, and sort the
rows by version key. -/
def GenerateTableData (obs : List Observation) (s : Str) : List TableRow :=
  List.insertionSort rowLe ((accumulate s obs).map (fun b => mkRow s b.1 b.2))

/-- First-match lookup in the association-list model of `versionMap`
(the bucket of key `k`, or `[]` when absent). -/
def bucketGet (k : Str) (m : List Bucket) : List Str :=
  match m.find? (fun b => decide (b.1 = k)) with
  | some b => b.2
  | none => []

/-- The keys of the association-list model, in insertion order. -/
def keysOf (m : List Bucket) : List Str := m.map Prod.fst

/-- Specification-side description of a bucket's contents: the `host:port`
strings of the kept observations whose version key is `k`, in traversal
order. -/
def keptHostPorts (s k : Str) (obs : List Observation) : List Str :=
  ((obs.filter (kept s)).filter (fun o => decide (versionKey o = k))).map hostPort

theorem kept_iff {s : Str} {o : Observation} :
    kept s o = true ↔ (o.portState ≠ filteredState ∧ o.serviceName = s) := by
  simp [kept]

theorem step_eq (s : Str) (m : List Bucket) (o : Observation) :
    step s m o = if kept s o = true then insertBucket (versionKey o) (hostPort o) m else m := by
  unfold step
  by_cases h1 : o.portState = filteredState <;> by_cases h2 : o.serviceName = s <;>
    simp [h1, h2, kept_iff]

theorem keptHostPorts_nil (s k : Str) : keptHostPorts s k [] = [] := rfl

theorem keptHostPorts_cons (s k : Str) (o : Observation) (tl : List Observation) :
    keptHostPorts s k (o :: tl) =
      if kept s o = true ∧ versionKey o = k then hostPort o :: keptHostPorts s k tl
      else keptHostPorts s k tl := by
  unfold keptHostPorts
  by_cases h1 : kept s o = true <;> by_cases h2 : versionKey o = k <;>
    simp [List.filter_cons, h1, h2]

theorem bucketGet_nil (k : Str) : bucketGet k [] = [] := rfl

theorem bucketGet_cons (k : Str) (b : Bucket) (m : List Bucket) :
    bucketGet k (b :: m) = if b.1 = k then b.2 else bucketGet k m := by
  unfold bucketGet
  rw [List.find?_cons]
  by_cases h : b.1 = k <;> simp [h]

theorem bucketGet_insertBucket (k0 hp : Str) (m : List Bucket) (k : Str) :
    bucketGet k (insertBucket k0 hp m) =
      if k0 = k then bucketGet k m ++ [hp] else bucketGet k m := by
  induction m with
  | nil =>
    by_cases h : k0 = k <;> simp [insertBucket, bucketGet_cons, bucketGet_nil, h]
  | cons b rest ih =>
    by_cases hb : b.1 = k0
    · by_cases hk : k0 = k
      · subst hk
        simp [insertBucket, hb, bucketGet_cons]
      · have hbk : ¬ b.1 = k := by rw [hb]; exact hk
        simp [insertBucket, hb, bucketGet_cons, hbk, hk]
    · by_cases hk : k0 = k
      · subst hk
        simp [insertBucket, hb, bucketGet_cons, ih]
      · simp [insertBucket, hb, bucketGet_cons, ih, hk]

theorem bucketGet_foldl (s : Str) (obs : List Observation) :
    ∀ m k, bucketGet k (obs.foldl (step s) m) = bucketGet k m ++ keptHostPorts s k obs := by
  induction obs with
  | nil => intro m k; simp [keptHostPorts_nil]
  | cons o tl ih =>
    intro m k
    rw [List.foldl_cons, ih, step_eq, keptHostPorts_cons]
    by_cases h1 : kept s o = true
    · rw [if_pos h1, bucketGet_insertBucket]
      by_cases h2 : versionKey o = k
      · rw [if_pos h2, if_pos ⟨h1, h2⟩, List.append_assoc]
        rfl
      · rw [if_neg h2, if_neg (fun h => h2 h.2)]
    · rw [if_neg h1, if_neg (fun h => h1 h.1)]

theorem bucketGet_accumulate (s k : Str) (obs : List Observation) :
    bucketGet k (accumulate s obs) = keptHostPorts s k obs := by
  rw [accumulate, bucketGet_foldl, bucketGet_nil, List.nil_append]

theorem keysOf_cons (b : Bucket) (m : List Bucket) :
    keysOf (b :: m) = b.1 :: keysOf m := rfl

theorem keysOf_insertBucket (k0 hp : Str) (m : List Bucket) :
    keysOf (insertBucket k0 hp m) =
      if k0 ∈ keysOf m then keysOf m else keysOf m ++ [k0] := by
  induction m with
  | nil => simp [insertBucket, keysOf]
  | cons b rest ih =>
    by_cases hb : b.1 = k0
    · subst hb
      simp [insertBucket, keysOf_cons]
    · have e : insertBucket k0 hp (b :: rest) = b :: insertBucket k0 hp rest := by
        simp [insertBucket, hb]
      rw [e, keysOf_cons, ih, keysOf_cons]
      by_cases hk : k0 ∈ keysOf rest
      · rw [if_pos hk, if_pos (List.mem_cons_of_mem _ hk)]
      · have hno : k0 ∉ b.1 :: keysOf rest := by
          intro h
          rcases List.mem_cons.mp h with h1 | h2
          · exact hb h1.symm
          · exact hk h2
        rw [if_neg hk, if_neg hno, List.cons_append]

theorem mem_keysOf_insertBucket {k k0 hp : Str} {m : List Bucket} :
    k ∈ keysOf (insertBucket k0 hp m) ↔ k = k0 ∨ k ∈ keysOf m := by
  rw [keysOf_insertBucket]
  by_cases h : k0 ∈ keysOf m
  · rw [if_pos h]
    constructor
    · exact Or.inr
    · rintro (rfl | hm)
      · exact h
      · exact hm
  · rw [if_neg h]
    simp [or_comm]

theorem nodup_keysOf_insertBucket {k0 hp : Str} {m : List Bucket}
    (h : (keysOf m).Nodup) : (keysOf (insertBucket k0 hp m)).Nodup := by
  rw [keysOf_insertBucket]
  by_cases hk : k0 ∈ keysOf m
  · rwa [if_pos hk]
  · rw [if_neg hk]
    exact ((List.perm_append_singleton k0 (keysOf m)).nodup_iff).mpr
      (List.nodup_cons.mpr ⟨hk, h⟩)

theorem nodup_keysOf_foldl (s : Str) (obs : List Observation) :
    ∀ m, (keysOf m).Nodup → (keysOf (obs.foldl (step s) m)).Nodup := by
  induction obs with
  | nil => intro m h; exact h
  | cons o tl ih =>
    intro m h
    rw [List.foldl_cons, step_eq]
    by_cases h1 : kept s o = true
    · rw [if_pos h1]
      exact ih _ (nodup_keysOf_insertBucket h)
    · rw [if_neg h1]
      exact ih _ h

theorem nodup_keysOf_accumulate (s : Str) (obs : List Observation) :
    (keysOf (accumulate s obs)).Nodup :=
  nodup_keysOf_foldl s obs [] List.nodup_nil

theorem mem_keysOf_foldl (s k : Str) (obs : List Observation) :
    ∀ m, k ∈ keysOf (obs.foldl (step s) m) ↔
      k ∈ keysOf m ∨ ∃ o ∈ obs, kept s o = true ∧ versionKey o = k := by
  induction obs with
  | nil => intro m; simp
  | cons o tl ih =>
    intro m
    rw [List.foldl_cons, step_eq]
    by_cases h1 : kept s o = true
    · rw [if_pos h1, ih]
      constructor
      · rintro (h | h)
        · rcases mem_keysOf_insertBucket.mp h with rfl | hm
          · exact Or.inr ⟨o, List.mem_cons_self o tl, h1, rfl⟩
          · exact Or.inl hm
        · rcases h with ⟨o2, ho2, hk2, hv2⟩
          exact Or.inr ⟨o2, List.mem_cons_of_mem _ ho2, hk2, hv2⟩
      · rintro (h | ⟨o2, ho2, hk2, hv2⟩)
        · exact Or.inl (mem_keysOf_insertBucket.mpr (Or.inr h))
        · rcases List.mem_cons.mp ho2 with rfl | htl
          · exact Or.inl (mem_keysOf_insertBucket.mpr (Or.inl hv2.symm))
          · exact Or.inr ⟨o2, htl, hk2, hv2⟩
    · rw [if_neg h1, ih]
      constructor
      · rintro (h | ⟨o2, ho2, hk2, hv2⟩)
        · exact Or.inl h
        · exact Or.inr ⟨o2, List.mem_cons_of_mem _ ho2, hk2, hv2⟩
      · rintro (h | ⟨o2, ho2, hk2, hv2⟩)
        · exact Or.inl h
        · rcases List.mem_cons.mp ho2 with rfl | htl
          · exact absurd hk2 h1
          · exact Or.inr ⟨o2, htl, hk2, hv2⟩

theorem mem_keysOf_accumulate {s k : Str} {obs : List Observation} :
    k ∈ keysOf (accumulate s obs) ↔ ∃ o ∈ obs, kept s o = true ∧ versionKey o = k := by
  rw [accumulate, mem_keysOf_foldl]
  simp [keysOf]

theorem mem_assoc_iff_of_nodup :
    ∀ {m : List Bucket}, (keysOf m).Nodup →
      ∀ {b : Bucket}, b ∈ m ↔ b.1 ∈ keysOf m ∧ b.2 = bucketGet b.1 m := by
  intro m
  induction m with
  | nil => intro _ b; simp [keysOf]
  | cons hd tl ih =>
    intro hn b
    rw [keysOf_cons] at hn
    have hhd : hd.1 ∉ keysOf tl := (List.nodup_cons.mp hn).1
    have htl : (keysOf tl).Nodup := (List.nodup_cons.mp hn).2
    rw [List.mem_cons, keysOf_cons, List.mem_cons, bucketGet_cons]
    constructor
    · rintro (rfl | hb)
      · simp
      · have h2 := (ih htl).mp hb
        have hne : ¬ hd.1 = b.1 := fun h => hhd (h ▸ h2.1)
        rw [if_neg hne]
        exact ⟨Or.inr h2.1, h2.2⟩
    · rintro ⟨h1 | h1, h2⟩
      · rw [if_pos h1.symm] at h2
        left
        have : b = (b.1, b.2) := rfl
        rw [this, h2, h1]
      · have hne : ¬ hd.1 = b.1 := fun h => hhd (h ▸ h1)
        rw [if_neg hne] at h2
        exact Or.inr ((ih htl).mpr ⟨h1, h2⟩)

theorem mem_accumulate_iff {s : Str} {obs : List Observation} {b : Bucket} :
    b ∈ accumulate s obs ↔
      (∃ o ∈ obs, kept s o = true ∧ versionKey o = b.1) ∧
        b.2 = keptHostPorts s b.1 obs := by
  rw [mem_assoc_iff_of_nodup (nodup_keysOf_accumulate s obs), mem_keysOf_accumulate,
    bucketGet_accumulate]

theorem flatten_insertBucket (k0 hp : Str) (m : List Bucket) :
    ((insertBucket k0 hp m).flatMap Prod.snd).Perm (hp :: m.flatMap Prod.snd) := by
  induction m with
  | nil => simp [insertBucket]
  | cons b rest ih =>
    by_cases hb : b.1 = k0
    · have e : insertBucket k0 hp (b :: rest) = (b.1, b.2 ++ [hp]) :: rest := by
        simp [insertBucket, hb]
      rw [e, List.flatMap_cons, List.flatMap_cons, List.append_assoc,
        List.singleton_append]
      exact List.perm_middle
    · have e : insertBucket k0 hp (b :: rest) = b :: insertBucket k0 hp rest := by
        simp [insertBucket, hb]
      rw [e, List.flatMap_cons, List.flatMap_cons]
      exact List.Perm.trans (List.Perm.append_left _ ih) List.perm_middle

theorem flatten_foldl (s : Str) (obs : List Observation) :
    ∀ m, ((obs.foldl (step s) m).flatMap Prod.snd).Perm
      (m.flatMap Prod.snd ++ (obs.filter (kept s)).map hostPort) := by
  induction obs with
  | nil => intro m; simp
  | cons o tl ih =>
    intro m
    rw [List.foldl_cons, step_eq, List.filter_cons]
    by_cases h1 : kept s o = true
    · rw [if_pos h1, if_pos h1, List.map_cons]
      refine List.Perm.trans (ih _) ?_
      refine List.Perm.trans
        (List.Perm.append_right _ (flatten_insertBucket (versionKey o) (hostPort o) m)) ?_
      rw [List.cons_append]
      exact (List.perm_middle).symm
    · rw [if_neg h1, if_neg h1]
      exact ih m

theorem flatten_accumulate (s : Str) (obs : List Observation) :
    ((accumulate s obs).flatMap Prod.snd).Perm ((obs.filter (kept s)).map hostPort) := by
  have h := flatten_foldl s obs []
  simpa using h

theorem sortStrs_sorted (l : List Str) : List.Sorted leR (sortStrs l) :=
  List.sorted_insertionSort leR l

theorem sortStrs_perm (l : List Str) : (sortStrs l).Perm l :=
  List.perm_insertionSort leR l

theorem sortStrs_eq_of_perm {l1 l2 : List Str} (h : l1.Perm l2) :
    sortStrs l1 = sortStrs l2 :=
  List.eq_of_perm_of_sorted ((sortStrs_perm l1).trans (h.trans (sortStrs_perm l2).symm))
    (sortStrs_sorted l1) (sortStrs_sorted l2)

theorem mkRow_congr {l1 l2 : List Str} (s k : Str) (h : l1.Perm l2) :
    mkRow s k l1 = mkRow s k l2 := by
  unfold mkRow
  rw [sortStrs_eq_of_perm h]

theorem generateTableData_perm_rows (obs : List Observation) (s : Str) :
    (GenerateTableData obs s).Perm ((accumulate s obs).map (fun b => mkRow s b.1 b.2)) :=
  List.perm_insertionSort rowLe _

theorem generateTableData_sorted (obs : List Observation) (s : Str) :
    List.Sorted rowLe (GenerateTableData obs s) :=
  List.sorted_insertionSort rowLe _

theorem mem_generateTableData {obs : List Observation} {s : Str} {r : TableRow} :
    r ∈ GenerateTableData obs s ↔
      (∃ o ∈ obs, kept s o = true ∧ versionKey o = r.versionKey) ∧
        r = mkRow s r.versionKey (keptHostPorts s r.versionKey obs) := by
  rw [(generateTableData_perm_rows obs s).mem_iff, List.mem_map]
  constructor
  · rintro ⟨b, hb, rfl⟩
    have h := mem_accumulate_iff.mp hb
    refine ⟨?_, ?_⟩
    · exact h.1
    · show mkRow s b.1 b.2 = mkRow s b.1 (keptHostPorts s b.1 obs)
      rw [h.2]
  · rintro ⟨⟨o, ho, hk, hv⟩, hr⟩
    exact ⟨(r.versionKey, keptHostPorts s r.versionKey obs),
      mem_accumulate_iff.mpr ⟨⟨o, ho, hk, hv⟩, rfl⟩, hr.symm⟩

theorem nodup_keys_generateTableData (obs : List Observation) (s : Str) :
    ((GenerateTableData obs s).map TableRow.versionKey).Nodup := by
  have h1 : ((accumulate s obs).map (fun b => mkRow s b.1 b.2)).map TableRow.versionKey
      = keysOf (accumulate s obs) := by
    rw [List.map_map]
    rfl
  have hperm := (generateTableData_perm_rows obs s).map TableRow.versionKey
  rw [h1] at hperm
  exact (hperm.nodup_iff).mpr (nodup_keysOf_accumulate s obs)

theorem sorted_rowLt_of {l : List TableRow} (h1 : List.Sorted rowLe l)
    (h2 : (l.map TableRow.versionKey).Nodup) : List.Sorted rowLt l := by
  have h3 : List.Pairwise (fun a b : TableRow => a.versionKey ≠ b.versionKey) l :=
    List.pairwise_map.mp h2
  exact (List.Pairwise.and h1 h3).imp (fun h => ⟨h.1, h.2⟩)

theorem rows_eq_of_perm {l1 l2 : List TableRow} (p : l1.Perm l2)
    (s1 : List.Sorted rowLe l1) (s2 : List.Sorted rowLe l2)
    (h : (l1.map TableRow.versionKey).Nodup) : l1 = l2 := by
  have h2 : (l2.map TableRow.versionKey).Nodup := ((p.map _).nodup_iff).mp h
  exact List.eq_of_perm_of_sorted p (sorted_rowLt_of s1 h) (sorted_rowLt_of s2 h2)

theorem keptHostPorts_perm {obs1 obs2 : List Observation} (p : obs1.Perm obs2)
    (s k : Str) : (keptHostPorts s k obs1).Perm (keptHostPorts s k obs2) :=
  ((p.filter _).filter _).map _

theorem accumulate_rows_eq (obs : List Observation) (s : Str) :
    (accumulate s obs).map (fun b => mkRow s b.1 b.2) =
      (keysOf (accumulate s obs)).map (fun k => mkRow s k (keptHostPorts s k obs)) := by
  rw [keysOf, List.map_map]
  apply List.map_congr_left
  intro b hb
  have h := (mem_accumulate_iff.mp hb).2
  show mkRow s b.1 b.2 = mkRow s b.1 (keptHostPorts s b.1 obs)
  rw [h]

theorem generateTableData_eq_of_perm {obs1 obs2 : List Observation} {s : Str}
    (p : obs1.Perm obs2) : GenerateTableData obs1 s = GenerateTableData obs2 s := by
  apply rows_eq_of_perm _ (generateTableData_sorted _ _) (generateTableData_sorted _ _)
    (nodup_keys_generateTableData _ _)
  refine ((generateTableData_perm_rows obs1 s).trans ?_).trans
    (generateTableData_perm_rows obs2 s).symm
  rw [accumulate_rows_eq, accumulate_rows_eq]
  have hkeys : (keysOf (accumulate s obs1)).Perm (keysOf (accumulate s obs2)) := by
    rw [List.perm_ext_iff_of_nodup (nodup_keysOf_accumulate s obs1)
      (nodup_keysOf_accumulate s obs2)]
    intro k
    rw [mem_keysOf_accumulate, mem_keysOf_accumulate]
    constructor
    · rintro ⟨o, ho, h⟩
      exact ⟨o, p.mem_iff.mp ho, h⟩
    · rintro ⟨o, ho, h⟩
      exact ⟨o, p.mem_iff.mpr ho, h⟩
  have hg : (fun k => mkRow s k (keptHostPorts s k obs1)) =
      (fun k => mkRow s k (keptHostPorts s k obs2)) :=
    funext (fun k => mkRow_congr s k (keptHostPorts_perm p s k))
  rw [hg]
  exact hkeys.map _

/-- Splitting a string on a (non-empty) separator token, leftmost-first:
the operational reading of "the entries inside `hostsField`".  The second
argument counts separator characters that remain to be skipped after a
match was recognised at the head. -/
def splitTokGo (sep : Str) : Str → Nat → List Str
  | [], _ => [[]]
  | _ :: rest, skip + 1 => splitTokGo sep rest skip
  | c :: rest, 0 =>
    if sep.isPrefixOf (c :: rest) && !sep.isEmpty then
      [] :: splitTokGo sep rest (sep.length - 1)
    else
      match splitTokGo sep rest 0 with
      | [] => [[c]]
      | p :: ps => (c :: p) :: ps

/-- Splits `s` on the separator token `sep`. -/
def splitTok (sep s : Str) : List Str := splitTokGo sep s 0

/-- Outcomes of the external calls performed by `main`, supplied as an
environment so that `main`'s control flow (lines 112-159 of `main.go`)
becomes a pure function.  Each field abstracts one fallible call, in
program order. -/
structure MainEnv where
  nmapDirFlag : Str
  resolveResult : Except Str Str
  walkResult : Except Str (List Str)
  parseResult : Except Str Unit
  createResult : Except Str Unit
  executeResult : Except Str Unit

/-- The observable outcome of one run of `main`: the process exit status,
the diagnostic/confirmation messages printed, whether the report file was
created (`os.Create` succeeded), and whether the report was completely
written. -/
structure MainOutcome where
  exitCode : Nat
  messages : List Str
  reportFileCreated : Bool
  reportCompleted : Bool
deriving DecidableEq

/-- The control flow of `main`: `log.Fatal`/`log.Fatalf` print one message
and exit with status 1; the `os.Create` and `tmpl.Execute` failure paths
print one message and `return` from `main`, which terminates the process
with exit status 0. -/
def runMain (env : MainEnv) : MainOutcome :=
  if env.nmapDirFlag = [] then
    { exitCode := 1
      messages := [str ("Please provide the Nmap directory using the -nmap-dir flag")]
      reportFileCreated := false, reportCompleted := false }
  else
    match env.resolveResult with
    | Except.error e =>
      { exitCode := 1, messages := [str ("invalid path: ") ++ e]
        reportFileCreated := false, reportCompleted := false }
    | Except.ok _ =>
      match env.walkResult with
      | Except.error e =>
        { exitCode := 1, messages := [str ("Error getting files. Error: ") ++ e]
          reportFileCreated := false, reportCompleted := false }
      | Except.ok _ =>
        match env.parseResult with
        | Except.error e =>
          { exitCode := 1, messages := [str ("Error parsing template: ") ++ e]
            reportFileCreated := false, reportCompleted := false }
        | Except.ok _ =>
          match env.createResult with
          | Except.error e =>
            { exitCode := 0, messages := [str ("Error creating output file: ") ++ e]
              reportFileCreated := false, reportCompleted := false }
          | Except.ok _ =>
            match env.executeResult with
            | Except.error e =>
              { exitCode := 0, messages := [str ("Error executing template: ") ++ e]
                reportFileCreated := true, reportCompleted := false }
            | Except.ok _ =>
              { exitCode := 0, messages := [str ("HTML table written")]
                reportFileCreated := true, reportCompleted := true }

/-- Default row used only to make positional indexing total in statements. -/
def defaultRow : TableRow :=
  { hostsField := [], serviceName := [], versionKey := [] }

/-- The requested service name used by the concrete test fixtures. -/
def svcTok : Str := str ("http")

/-- Fixture: host 2.2.2.2, open http port 80, nginx 1. -/
def obsA : Observation :=
  { host := str ("2.2.2.2"), port := str ("80"), portState := str ("open")
    serviceName := str ("http"), serviceProduct := str ("nginx")
    serviceVersion := str ("1") }

/-- Fixture: host 1.1.1.1, open http port 80, nginx 1 (same key as `obsA`). -/
def obsB : Observation :=
  { host := str ("1.1.1.1"), port := str ("80"), portState := str ("open")
    serviceName := str ("http"), serviceProduct := str ("nginx")
    serviceVersion := str ("1") }

/-- Fixture: host 3.3.3.3, open http port 80, nginx 2 (a different key). -/
def obsC : Observation :=
  { host := str ("3.3.3.3"), port := str ("80"), portState := str ("open")
    serviceName := str ("http"), serviceProduct := str ("nginx")
    serviceVersion := str ("2") }

/-- Fixture: a host string that contains the `"<br>"` separator token. -/
def obsBrHost : Observation :=
  { host := str ("a<br>z"), port := str ("80"), portState := str ("open")
    serviceName := str ("http"), serviceProduct := str ("nginx")
    serviceVersion := str ("1") }

/-- Fixture: host `"b"`, same key as `obsBrHost`. -/
def obsPlainB : Observation :=
  { host := str ("b"), port := str ("80"), portState := str ("open")
    serviceName := str ("http"), serviceProduct := str ("nginx")
    serviceVersion := str ("1") }

/-- Fixture: an observation whose scanned host listed no address. -/
def obsNoHost : Observation :=
  { host := [], port := str ("80"), portState := str ("open")
    serviceName := str ("http"), serviceProduct := str ("nginx")
    serviceVersion := str ("1") }

/-- Fixture for the C9 scenario: 10.0.0.1, open ms-sql-s. -/
def obsSQL1 : Observation :=
  { host := str ("10.0.0.1"), port := str ("1433"), portState := str ("open")
    serviceName := str ("ms-sql-s"), serviceProduct := str ("Microsoft SQL Server")
    serviceVersion := str ("2019") }

/-- Fixture for the C9 scenario: 10.0.0.2, open ms-sql-s. -/
def obsSQL2 : Observation :=
  { host := str ("10.0.0.2"), port := str ("1433"), portState := str ("open")
    serviceName := str ("ms-sql-s"), serviceProduct := str ("Microsoft SQL Server")
    serviceVersion := str ("2019") }

/-- Fixture for the C9 scenario: 10.0.0.3, filtered ms-sql-s. -/
def obsSQL3 : Observation :=
  { host := str ("10.0.0.3"), port := str ("1433"), portState := str ("filtered")
    serviceName := str ("ms-sql-s"), serviceProduct := str ("X")
    serviceVersion := str ("1") }

/-- Environment in which the `-nmap-dir` flag was not provided. -/
def envMissingDir : MainEnv :=
  { nmapDirFlag := [], resolveResult := Except.ok (str ("/scans"))
    walkResult := Except.ok [], parseResult := Except.ok ()
    createResult := Except.ok (), executeResult := Except.ok () }

/-- Environment in which everything succeeds up to `os.Create`, which fails
(unwritable report output target). -/
def envCreateFail : MainEnv :=
  { nmapDirFlag := str ("scans"), resolveResult := Except.ok (str ("/scans"))
    walkResult := Except.ok [], parseResult := Except.ok ()
    createResult := Except.error (str ("permission denied"))
    executeResult := Except.ok () }

theorem foldl_step_filter (s : Str) (p : Observation → Bool)
    (hp : ∀ o, p o = false → ∀ m, step s m o = m) (obs : List Observation) :
    ∀ m, (obs.filter p).foldl (step s) m = obs.foldl (step s) m := by
  induction obs with
  | nil => intro m; rfl
  | cons o tl ih =>
    intro m
    rw [List.filter_cons]
    by_cases h : p o = true
    · rw [if_pos h, List.foldl_cons, List.foldl_cons, ih]
    · rw [if_neg h, List.foldl_cons, hp o (Bool.eq_false_iff.mpr h), ih]

/-- Claim C1: for any two presentation orders of the same multiset of
observations (any permutation, hence any partition of the records across
input files), `GenerateTableData` returns identical row sequences; in
particular two runs agree. -/
theorem claim1_order_invariance (obs1 obs2 : List Observation) (s : Str)
    (h : obs1.Perm obs2) : GenerateTableData obs1 s = GenerateTableData obs2 s :=
  generateTableData_eq_of_perm h

/-- Witness for C1 at a concrete permuted pair of inputs. -/
theorem claim1_witness :
    GenerateTableData [obsA, obsC] svcTok = GenerateTableData [obsC, obsA] svcTok :=
  claim1_order_invariance [obsA, obsC] [obsC, obsA] svcTok (List.Perm.swap obsC obsA [])

/-- Claim C2: the rows returned by `GenerateTableData` are sorted ascending
lexicographically by version key: for indices `i < j` within bounds,
`output[i].versionKey ≤ output[j].versionKey`. -/
theorem claim2_rows_sorted (obs : List Observation) (s : Str) (i j : Nat)
    (hij : i < j) (hj : j < (GenerateTableData obs s).length) :
    leR (((GenerateTableData obs s).getD i defaultRow).versionKey)
      (((GenerateTableData obs s).getD j defaultRow).versionKey) := by
  have hi : i < (GenerateTableData obs s).length := lt_trans hij hj
  rw [List.getD_eq_getElem _ _ hi, List.getD_eq_getElem _ _ hj]
  have hs := List.pairwise_iff_get.mp (generateTableData_sorted obs s)
    ⟨i, hi⟩ ⟨j, hj⟩ hij
  exact hs

/-- Witness for C2 on a two-row output. -/
theorem claim2_witness :
    0 < 1 ∧ 1 < (GenerateTableData [obsC, obsA] svcTok).length ∧
      leR (((GenerateTableData [obsC, obsA] svcTok).getD 0 defaultRow).versionKey)
        (((GenerateTableData [obsC, obsA] svcTok).getD 1 defaultRow).versionKey) :=
  ⟨by decide, by decide, claim2_rows_sorted [obsC, obsA] svcTok 0 1 (by decide) (by decide)⟩

/-- Claim C4: observations whose port state is `"filtered"` never contribute:
removing all of them from the input leaves the output unchanged. -/
theorem claim4_filtered_never_contributes (obs : List Observation) (s : Str) :
    GenerateTableData obs s =
      GenerateTableData (obs.filter (fun o => decide (o.portState ≠ filteredState))) s := by
  have hp : ∀ o, (fun o => decide (o.portState ≠ filteredState)) o = false →
      ∀ m, step s m o = m := by
    intro o ho m
    have hf : o.portState = filteredState := by simpa using ho
    simp [step, hf]
  have h : accumulate s (obs.filter (fun o => decide (o.portState ≠ filteredState)))
      = accumulate s obs := by
    unfold accumulate
    exact foldl_step_filter s _ hp obs []
  unfold GenerateTableData
  rw [h]

/-- Claim C8: the service-name filter is exact, case-sensitive string
equality: removing every observation whose service name differs from the
requested one (in any way, case included) leaves the output unchanged; an
input matching except for letter case yields no output at all. -/
theorem claim8_exact_name_match (obs : List Observation) (s : Str) :
    (GenerateTableData obs s =
      GenerateTableData (obs.filter (fun o => decide (o.serviceName = s))) s) ∧
      GenerateTableData
        [{ host := str ("10.0.0.1"), port := str ("1433"), portState := str ("open")
           serviceName := str ("MS-SQL-S"), serviceProduct := str ("p")
           serviceVersion := str ("1") }] (str ("ms-sql-s")) = [] := by
  constructor
  · have hp : ∀ o, (fun o => decide (o.serviceName = s)) o = false →
        ∀ m, step s m o = m := by
      intro o ho m
      have hne : ¬ o.serviceName = s := by simpa using ho
      simp [step, hne]
    have h : accumulate s (obs.filter (fun o => decide (o.serviceName = s)))
        = accumulate s obs := by
      unfold accumulate
      exact foldl_step_filter s _ hp obs []
    unfold GenerateTableData
    rw [h]
  · rfl

/-- Counterexample for C3 as stated: when a kept observation's host itself
contains the `"<br>"` separator token, splitting the emitted `hostsField`
on the token does not yield a sorted entry list.  Here the single row's
field is `"a<br>z:80<br>b:80"` and the split pieces `["a", "z:80", "b:80"]`
are not ascending. -/
theorem claim3_counterexample :
    ¬ ∀ r ∈ GenerateTableData [obsBrHost, obsPlainB] svcTok,
        List.Pairwise leR (splitTok brTok r.hostsField) := by
  decide

/-- Claim C3 as amended: every row's `hostsField` is the `"<br>"`-join of a
lexicographically ascending list holding exactly the `host:port` entries of
the contributing observations (so the split-on-token reading of the claim
holds whenever no entry itself contains the token). -/
theorem claim3_hosts_sorted (obs : List Observation) (s : Str) :
    ∀ r ∈ GenerateTableData obs s,
      ∃ l : List Str, List.Sorted leR l ∧ l.Perm (keptHostPorts s r.versionKey obs) ∧
        r.hostsField = List.intercalate brTok l := by
  intro r hr
  have h := (mem_generateTableData.mp hr).2
  refine ⟨sortStrs (keptHostPorts s r.versionKey obs), sortStrs_sorted _,
    sortStrs_perm _, ?_⟩
  conv_lhs => rw [h]
  rfl

/-- Witness for C3 (amended) at the spec's two-host scenario: the row joins
`"1.1.1.1:80"` before `"2.2.2.2:80"` regardless of traversal order. -/
theorem claim3_witness :
    ({ hostsField := str ("1.1.1.1:80<br>2.2.2.2:80"), serviceName := svcTok
       versionKey := str ("nginx 1") } : TableRow) ∈ GenerateTableData [obsA, obsB] svcTok
      ∧ ∃ l : List Str, List.Sorted leR l ∧
          l.Perm (keptHostPorts svcTok
            ({ hostsField := str ("1.1.1.1:80<br>2.2.2.2:80"), serviceName := svcTok
               versionKey := str ("nginx 1") } : TableRow).versionKey [obsA, obsB]) ∧
          ({ hostsField := str ("1.1.1.1:80<br>2.2.2.2:80"), serviceName := svcTok
             versionKey := str ("nginx 1") } : TableRow).hostsField =
            List.intercalate brTok l :=
  ⟨by decide, claim3_hosts_sorted [obsA, obsB] svcTok _ (by decide)⟩

/-- Claim C5: the grouping key of a kept observation is exactly
`serviceProduct ++ " " ++ serviceVersion` (space preserved even for empty
sides); each kept observation has exactly one output row carrying its key,
and two kept observations share that row precisely when their concatenated
key texts are equal. -/
theorem claim5_grouping_key (obs : List Observation) (s : Str) (o1 o2 : Observation)
    (h1 : o1 ∈ obs) (h2 : o2 ∈ obs) (k1 : kept s o1 = true) (k2 : kept s o2 = true) :
    versionKey o1 = o1.serviceProduct ++ str (" ") ++ o1.serviceVersion ∧
      (∃! r, r ∈ GenerateTableData obs s ∧ r.versionKey = versionKey o1) ∧
      ((∃ r ∈ GenerateTableData obs s,
          r.versionKey = versionKey o1 ∧ r.versionKey = versionKey o2) ↔
        versionKey o1 = versionKey o2) := by
  refine ⟨rfl, ?_, ?_⟩
  · refine ⟨mkRow s (versionKey o1) (keptHostPorts s (versionKey o1) obs),
      ⟨mem_generateTableData.mpr ⟨⟨o1, h1, k1, rfl⟩, rfl⟩, rfl⟩, ?_⟩
    rintro r ⟨hr, hrk⟩
    have h := (mem_generateTableData.mp hr).2
    rw [h, hrk]
  · constructor
    · rintro ⟨r, _, ha, hb⟩
      rw [← ha, hb]
    · intro h
      refine ⟨mkRow s (versionKey o1) (keptHostPorts s (versionKey o1) obs),
        mem_generateTableData.mpr ⟨⟨o1, h1, k1, rfl⟩, rfl⟩, rfl, ?_⟩
      exact h ▸ rfl

/-- Witness for C5 at two concrete kept observations with equal keys. -/
theorem claim5_witness :
    (obsA ∈ [obsA, obsB] ∧ obsB ∈ [obsA, obsB] ∧
        kept svcTok obsA = true ∧ kept svcTok obsB = true) ∧
      (versionKey obsA = obsA.serviceProduct ++ str (" ") ++ obsA.serviceVersion ∧
        (∃! r, r ∈ GenerateTableData [obsA, obsB] svcTok ∧
          r.versionKey = versionKey obsA) ∧
        ((∃ r ∈ GenerateTableData [obsA, obsB] svcTok,
            r.versionKey = versionKey obsA ∧ r.versionKey = versionKey obsB) ↔
          versionKey obsA = versionKey obsB)) :=
  ⟨⟨by decide, by decide, by decide, by decide⟩,
    claim5_grouping_key [obsA, obsB] svcTok obsA obsB
      (by decide) (by decide) (by decide) (by decide)⟩

/-- Claim C7: no deduplication ever happens: the multiset of `host:port`
entries across all buckets (whose sorted joins are exactly the rows'
`hostsField` values) equals the multiset of `host + ":" + port` over the
kept observations. -/
theorem claim7_no_dedup (obs : List Observation) (s : Str) :
    ((accumulate s obs).flatMap Prod.snd).Perm ((obs.filter (kept s)).map hostPort) ∧
      (GenerateTableData obs s).Perm
        ((accumulate s obs).map (fun b => mkRow s b.1 b.2)) ∧
      ∀ b ∈ accumulate s obs,
        (mkRow s b.1 b.2).hostsField = List.intercalate brTok (sortStrs b.2) ∧
          (sortStrs b.2).Perm b.2 :=
  ⟨flatten_accumulate s obs, generateTableData_perm_rows obs s,
    fun b _ => ⟨rfl, sortStrs_perm b.2⟩⟩

/-- Witness for C7: a duplicated kept observation yields a duplicated entry. -/
theorem claim7_witness :
    ((accumulate svcTok [obsA, obsA]).flatMap Prod.snd).Perm
        (([obsA, obsA].filter (kept svcTok)).map hostPort) ∧
      (GenerateTableData [obsA, obsA] svcTok).Perm
        ((accumulate svcTok [obsA, obsA]).map (fun b => mkRow svcTok b.1 b.2)) ∧
      ∀ b ∈ accumulate svcTok [obsA, obsA],
        (mkRow svcTok b.1 b.2).hostsField = List.intercalate brTok (sortStrs b.2) ∧
          (sortStrs b.2).Perm b.2 :=
  claim7_no_dedup [obsA, obsA] svcTok

/-- Claim C9: the three-observation ms-sql-s scenario produces exactly one
row, with the two open hosts joined in ascending order and the filtered
observation absent. -/
theorem claim9_scenario :
    GenerateTableData [obsSQL1, obsSQL2, obsSQL3] (str ("ms-sql-s")) =
      [{ hostsField := str ("10.0.0.1:1433<br>10.0.0.2:1433")
         serviceName := str ("ms-sql-s")
         versionKey := str ("Microsoft SQL Server 2019") }] := by
  decide

/-- Claim C10: a kept observation with an empty host string is not dropped:
its entry is `":" ++ port` and it appears among the entries joined into the
row of its version key. -/
theorem claim10_empty_host (obs : List Observation) (s : Str) (o : Observation)
    (ho : o ∈ obs) (hk : kept s o = true) (hh : o.host = []) :
    hostPort o = str (":") ++ o.port ∧
      ∃ r ∈ GenerateTableData obs s, r.versionKey = versionKey o ∧
        (str (":") ++ o.port) ∈ sortStrs (keptHostPorts s (versionKey o) obs) ∧
        r.hostsField = List.intercalate brTok (sortStrs (keptHostPorts s (versionKey o) obs)) := by
  have hhp : hostPort o = str (":") ++ o.port := by
    rw [hostPort, hh]
    rfl
  refine ⟨hhp, mkRow s (versionKey o) (keptHostPorts s (versionKey o) obs),
    mem_generateTableData.mpr ⟨⟨o, ho, hk, rfl⟩, rfl⟩, rfl, ?_, rfl⟩
  rw [← hhp]
  apply (sortStrs_perm _).mem_iff.mpr
  exact List.mem_map.mpr ⟨o,
    List.mem_filter.mpr ⟨List.mem_filter.mpr ⟨ho, hk⟩, by simp⟩, rfl⟩

/-- Witness for C10 at a concrete address-less observation. -/
theorem claim10_witness :
    (obsNoHost ∈ [obsNoHost] ∧ kept svcTok obsNoHost = true ∧ obsNoHost.host = []) ∧
      (hostPort obsNoHost = str (":") ++ obsNoHost.port ∧
        ∃ r ∈ GenerateTableData [obsNoHost] svcTok,
          r.versionKey = versionKey obsNoHost ∧
          (str (":") ++ obsNoHost.port) ∈
            sortStrs (keptHostPorts svcTok (versionKey obsNoHost) [obsNoHost]) ∧
          r.hostsField = List.intercalate brTok
            (sortStrs (keptHostPorts svcTok (versionKey obsNoHost) [obsNoHost]))) :=
  ⟨⟨by decide, by decide, by decide⟩,
    claim10_empty_host [obsNoHost] svcTok obsNoHost (by decide) (by decide) (by decide)⟩

/-- Counterexample for C6 as stated: an unwritable report output target
(`os.Create` fails) prints one diagnostic and writes no report, but the
process returns from `main` normally, so the exit status is 0, not
non-zero. -/
theorem claim6_counterexample :
    ¬ ((runMain envCreateFail).exitCode ≠ 0 ∧
        (runMain envCreateFail).messages.length = 1 ∧
        (runMain envCreateFail).reportFileCreated = false) := by
  decide

/-- Claim C6 as amended: a missing root directory, an unresolvable path, or
a failing directory walk aborts with exit status 1, one diagnostic, and no
report file; a failing `os.Create` (unwritable report output target) also
prints exactly one diagnostic and writes no report file, but the process
exits with status 0. -/
theorem claim6_fatal_setup (env : MainEnv) :
    ((env.nmapDirFlag = [] ∨ (∃ e, env.resolveResult = Except.error e) ∨
        (∃ e, env.walkResult = Except.error e)) →
      (runMain env).exitCode = 1 ∧ (runMain env).messages.length = 1 ∧
        (runMain env).reportFileCreated = false ∧
        (runMain env).reportCompleted = false) ∧
    ((env.nmapDirFlag ≠ [] ∧ (∃ d, env.resolveResult = Except.ok d) ∧
        (∃ fs, env.walkResult = Except.ok fs) ∧
        (∃ u, env.parseResult = Except.ok u) ∧
        (∃ e, env.createResult = Except.error e)) →
      (runMain env).exitCode = 0 ∧ (runMain env).messages.length = 1 ∧
        (runMain env).reportFileCreated = false ∧
        (runMain env).reportCompleted = false) := by
  obtain ⟨flag, res, walk, parse, create, exec⟩ := env
  constructor
  · rintro (rfl | ⟨e, rfl⟩ | ⟨e, rfl⟩)
    · simp [runMain]
    · by_cases hf : flag = [] <;> simp [runMain, hf]
    · by_cases hf : flag = [] <;> rcases res with re | rd <;> simp [runMain, hf]
  · rintro ⟨hf, ⟨d, rfl⟩, ⟨fs, rfl⟩, ⟨u, rfl⟩, ⟨e, rfl⟩⟩
    simp [runMain, hf]

/-- Witness for C6 (amended) at a missing-flag environment and at a
failing-`os.Create` environment. -/
theorem claim6_witness :
    ((runMain envMissingDir).exitCode = 1 ∧ (runMain envMissingDir).messages.length = 1 ∧
        (runMain envMissingDir).reportFileCreated = false ∧
        (runMain envMissingDir).reportCompleted = false) ∧
      ((runMain envCreateFail).exitCode = 0 ∧ (runMain envCreateFail).messages.length = 1 ∧
        (runMain envCreateFail).reportFileCreated = false ∧
        (runMain envCreateFail).reportCompleted = false) :=
  ⟨(claim6_fatal_setup envMissingDir).1 (Or.inl rfl),
    (claim6_fatal_setup envCreateFail).2
      ⟨by decide, ⟨str ("/scans"), rfl⟩, ⟨[], rfl⟩, ⟨(), rfl⟩,
        ⟨str ("permission denied"), rfl⟩⟩⟩
